import Mathlib

/-!
Shallow embedding of the LuminaTask process-monitoring core
(src/src/processmanager.cpp, src/include/processmanager.h).

Conventions of the embedding:
- C++ doubles are modelled as Rat.  All double values reaching a comparison
  in the claims are exact in binary64 for realistic magnitudes (memory values
  are multiples of 1/1024, timestamps are integers below 2^53).  The
  constant `MEMORY_LEAK_TIME_WINDOW_MS * 0.8` is also exact: binary64 0.8
  exceeds 4/5 by half an ulp, but the product 60000 * double(0.8) rounds
  back down to exactly 48000.0, so the comparison
  `(double)(age) >= 60000 * 0.8` on integer millisecond ages is the
  integer test `48000 <= age`, which is what the embedding uses.
- qint64 timestamps are modelled as Int (realistic epoch-millisecond values
  never overflow, so no wraparound is modelled).
- The process filesystem, the effective UID, and the results of the kill and
  setpriority system calls are inputs, collected in a `SysEnv` record; file
  contents are `Option (List String)` (none = the open call fails, some =
  the list of lines).
- Qt signal emissions and issued system calls are returned explicitly as
  lists of `Event` and `Syscall` values.
-/

namespace LuminaTask

/-- Run state of a process (enum ProcessState in processmanager.h). -/
inductive ProcessState
  | running
  | suspended
deriving DecidableEq, Repr

/-- Termination method (enum TerminationMethod in processmanager.h). -/
inductive TerminationMethod
  | graceful
  | force
deriving DecidableEq, Repr

/-- Per-process record (struct ProcessInfo in processmanager.h). -/
structure ProcessInfo where
  pid : Int
  name : String
  memoryMB : Rat
  cpuPercent : Rat
  state : ProcessState
  memoryHistory : List (Int × Rat)
  isMemoryLeech : Bool
  priority : Int
deriving DecidableEq, Repr

/-- Errors thrown as ProcessException in the C++ source. -/
inductive ProcessError
  | cannotOpen
  | emptyName
deriving DecidableEq, Repr

/-- Contents of the per-PID files under /proc read by the manager.
none models a failing open call; some gives the lines of the file. -/
structure ProcFiles where
  commLines : Option (List String)
  statusLines : Option (List String)
  statLines : Option (List String)

/-- The environment a ProcessManager call runs against: the /proc
filesystem, the caller UID, the clock-independent system facts and the
outcomes of the signal and priority system calls. -/
structure SysEnv where
  files : Int → ProcFiles
  procDirExists : Int → Bool
  uptimeLine : Option String
  ticksPerSecond : Int
  euid : Nat
  killResult : Int → Int → Int
  setpriorityResult : Int → Int → Int

/-- Qt signals emitted by ProcessManager (processmanager.h signals section). -/
inductive Event
  | processTerminated (pid : Int) (success : Bool)
  | memoryLeakDetected (pid : Int) (name : String) (growthMB : Rat)
deriving DecidableEq, Repr

/-- System calls with side effects issued by ProcessManager. -/
inductive Syscall
  | kill (pid : Int) (signal : Int)
  | setpriority (pid : Int) (niceness : Int)
deriving DecidableEq, Repr

/-- Result of a control operation: the returned bool, the emitted signals
and the issued system calls. -/
structure OpResult where
  result : Bool
  events : List Event
  syscalls : List Syscall
deriving DecidableEq, Repr

/-- Constants from processmanager.h. -/
def MEMORY_LEAK_THRESHOLD_MB : Rat := 100

/-- Time window of the memory history, in milliseconds. -/
def MEMORY_LEAK_TIME_WINDOW_MS : Int := 60000

/-- Maximum number of history entries kept per PID. -/
def HISTORY_MAX_ENTRIES : Nat := 30

/-- POSIX signal numbers used by the manager. -/
def SIGTERM : Int := 15

/-- Unconditional kill signal. -/
def SIGKILL : Int := 9

/-- Stop signal used by suspendProcess. -/
def SIGSTOP : Int := 19

/-- Continue signal used by resumeProcess. -/
def SIGCONT : Int := 18

/-- isValidProcessID_: pid strictly between 0 and 65536. -/
def isValidProcessID (pid : Int) : Bool :=
  decide (0 < pid) && decide (pid < 65536)

/-- Split a character list at every occurrence of the separator. -/
def splitChars (sep : Char) : List Char → List (List Char)
  | [] => [[]]
  | c :: rest =>
    if c == sep then [] :: splitChars sep rest
    else
      match splitChars sep rest with
      | [] => [[c]]
      | part :: parts => (c :: part) :: parts

/-- QString split with Qt.SkipEmptyParts on one separator character. -/
def splitSkipEmpty (sep : Char) (line : String) : List String :=
  ((splitChars sep line.data).filter (fun l => !l.isEmpty)).map (fun l => ⟨l⟩)

/-- QString startsWith. -/
def strStartsWith (line pre : String) : Bool :=
  List.isPrefixOf pre.data line.data

/-- Whitespace recognised when trimming (the characters that occur in the
proc records this program reads). -/
def isSpaceChar (c : Char) : Bool :=
  c == ' ' || c == '\t' || c == '\n' || c == '\r'

/-- QString trimmed: strip leading and trailing whitespace. -/
def strTrim (s : String) : String :=
  ⟨((s.data.dropWhile isSpaceChar).reverse.dropWhile isSpaceChar).reverse⟩

/-- Digit-run parser shared by the numeric conversions. -/
def charsToNat? (l : List Char) : Option Nat :=
  if l.isEmpty then none
  else
    l.foldl
      (fun acc c =>
        match acc with
        | none => none
        | some n => if c.isDigit then some (n * 10 + (c.toNat - 48)) else none)
      (some 0)

/-- QString toUInt and toULong: digits only. -/
def strToNat? (s : String) : Option Nat :=
  charsToNat? s.data

/-- QString toInt and toLong: optional sign, then digits. -/
def strToInt? (s : String) : Option Int :=
  match s.data with
  | '-' :: rest => (charsToNat? rest).map (fun n => -(n : Int))
  | '+' :: rest => (charsToNat? rest).map (fun n => (n : Int))
  | l => (charsToNat? l).map (fun n => (n : Int))

/-- QTextStream readLine on a whole file: the first line, empty at EOF. -/
def firstLine (lines : List String) : String :=
  match lines with
  | [] => ""
  | l :: _ => l

/-- readProcessName_: first line of /proc/pid/comm, trimmed; throws if the
file does not open or the trimmed name is empty. -/
def readProcessName (commLines : Option (List String)) : Except ProcessError String :=
  match commLines with
  | none => Except.error ProcessError.cannotOpen
  | some lines =>
    let processName := strTrim (firstLine lines)
    if processName.data.isEmpty then Except.error ProcessError.emptyName
    else Except.ok processName

/-- Scan of the status lines for the VmRSS field performed by
readProcessMemory_: on the first line starting with "VmRSS:", parse the
second whitespace-separated field as kilobytes and divide by 1024; on any
parse shortfall in that line, or when no line matches, return 0. -/
def scanVmRSS : List String → Rat
  | [] => 0
  | line :: rest =>
    if strStartsWith line "VmRSS:" then
      let parts := splitSkipEmpty ' ' line
      if 3 ≤ parts.length then
        match strToInt? (parts.getD 1 "") with
        | some kbValue => (kbValue : Rat) / 1024
        | none => 0
      else 0
    else scanVmRSS rest

/-- readProcessMemory_: throws when /proc/pid/status does not open,
otherwise scans for the VmRSS line. -/
def readProcessMemory (statusLines : Option (List String)) : Except ProcessError Rat :=
  match statusLines with
  | none => Except.error ProcessError.cannotOpen
  | some lines => Except.ok (scanVmRSS lines)

/-- readProcessState_: field 3 of the stat line, T or t maps to suspended,
anything else (including unreadable or short lines) to running. -/
def readProcessState (statLines : Option (List String)) : ProcessState :=
  match statLines with
  | none => ProcessState.running
  | some lines =>
    let line := firstLine lines
    if line.data.isEmpty then ProcessState.running
    else
      let parts := splitSkipEmpty ' ' line
      if 3 ≤ parts.length then
        if (parts.getD 2 "").data == ['T'] || (parts.getD 2 "").data == ['t'] then
          ProcessState.suspended
        else ProcessState.running
      else ProcessState.running

/-- readProcessPriority_: field 19 of the stat line parsed as an int,
0 on any failure. -/
def readProcessPriority (statLines : Option (List String)) : Int :=
  match statLines with
  | none => 0
  | some lines =>
    let line := firstLine lines
    if line.data.isEmpty then 0
    else
      let parts := splitSkipEmpty ' ' line
      if 19 ≤ parts.length then
        match strToInt? (parts.getD 18 "") with
        | some nice => nice
        | none => 0
      else 0

/-- Parse a decimal number of the simple digits-dot-digits shape that
/proc/uptime produces (models QString toDouble on such inputs). -/
def parseDecimal (s : String) : Option Rat :=
  match splitChars '.' s.data with
  | [intPart] => (charsToNat? intPart).map (fun n => (n : Rat))
  | [intPart, fracPart] =>
    match charsToNat? intPart, charsToNat? fracPart with
    | some i, some f => some ((i : Rat) + (f : Rat) / ((10 : Rat) ^ fracPart.length))
    | _, _ => none
  | _ => none

/-- readProcessCpu_: utime+stime from fields 14 and 15 of the stat line,
converted to seconds with the tick rate, divided by uptime, scaled to
percent and clamped to the range 0 to 100.  Returns 0 on any read or
parse failure. -/
def readProcessCpu (env : SysEnv) (statLines : Option (List String)) : Rat :=
  match statLines with
  | none => 0
  | some lines =>
    let line := firstLine lines
    if line.data.isEmpty then 0
    else
      let parts := splitSkipEmpty ' ' line
      if 16 ≤ parts.length then
        match strToNat? (parts.getD 13 ""), strToNat? (parts.getD 14 "") with
        | some utime, some stime =>
          let totalTime := utime + stime
          match env.uptimeLine with
          | none => 0
          | some uptimeLine =>
            match splitSkipEmpty ' ' uptimeLine with
            | [] => 0
            | u0 :: _ =>
              match parseDecimal u0 with
              | none => 0
              | some uptime =>
                if uptime ≤ 0 then 0
                else if env.ticksPerSecond ≤ 0 then 0
                else
                  let cpuSeconds := (totalTime : Rat) / (env.ticksPerSecond : Rat)
                  let cpuPercent := cpuSeconds / uptime * 100
                  max 0 (min cpuPercent 100)
        | _, _ => 0
      else 0

/-- Scan of the status lines for the Uid field performed by
canKillProcess_: on the first line starting with "Uid:", the second
tab-separated field must parse and equal the caller UID; any other outcome
of that line, or no matching line, yields false. -/
def scanUidLine (euid : Nat) : List String → Bool
  | [] => false
  | line :: rest =>
    if strStartsWith line "Uid:" then
      let parts := splitSkipEmpty '\t' line
      if 2 ≤ parts.length then
        match strToNat? (parts.getD 1 "") with
        | some processUid => decide (processUid = euid)
        | none => false
      else false
    else scanUidLine euid rest

/-- canKillProcess_: root may signal anything; otherwise the owning UID in
/proc/pid/status must equal the caller effective UID. -/
def canKillProcess (env : SysEnv) (pid : Int) : Bool :=
  if env.euid = 0 then true
  else
    match (env.files pid).statusLines with
    | none => false
    | some lines => scanUidLine env.euid lines

/-- Front-eviction loop of updateMemoryHistory_: pop the first entry while
it is older than the time window relative to the current time. -/
def dropOldEntries (currentTime : Int) : List (Int × Rat) → List (Int × Rat)
  | [] => []
  | e :: rest =>
    if MEMORY_LEAK_TIME_WINDOW_MS < currentTime - e.1 then dropOldEntries currentTime rest
    else e :: rest

/-- Size-cap loop of updateMemoryHistory_: pop the first entry while the
length exceeds HISTORY_MAX_ENTRIES. -/
def capEntries : List (Int × Rat) → List (Int × Rat)
  | [] => []
  | e :: rest =>
    if HISTORY_MAX_ENTRIES < (e :: rest).length then capEntries rest
    else e :: rest

/-- updateMemoryHistory_ on one history list: append the new sample, evict
entries outside the time window from the front, then cap the length. -/
def updateMemoryHistory (currentTime : Int) (memoryMB : Rat)
    (history : List (Int × Rat)) : List (Int × Rat) :=
  capEntries (dropOldEntries currentTime (history ++ [(currentTime, memoryMB)]))

/-- The per-PID history map m_processMemoryHistory, as an association list. -/
def HistMap : Type := List (Int × List (Int × Rat))

/-- QMap lookup with the default-constructed empty history for absent keys
(models operator[] read). -/
def mapLookup (m : HistMap) (p : Int) : List (Int × Rat) :=
  match m with
  | [] => []
  | (q, h) :: rest => if q = p then h else mapLookup rest p

/-- QMap store: replace the binding of the key, or append a new binding. -/
def mapInsert (m : HistMap) (p : Int) (h : List (Int × Rat)) : HistMap :=
  match m with
  | [] => [(p, h)]
  | (q, h0) :: rest => if q = p then (p, h) :: rest else (q, h0) :: mapInsert rest p h

/-- updateMemoryHistory_ on the manager state: rewrite only the entry of
the given PID through the in-place mutation of the mapped history. -/
def updateMemoryHistoryMap (currentTime : Int) (memoryMB : Rat) (pid : Int)
    (m : HistMap) : HistMap :=
  mapInsert m pid (updateMemoryHistory currentTime memoryMB (mapLookup m pid))

/-- Reference-sample loop of detectMemoryLeak_: scan the history from the
front and return the first entry whose age relative to the current time is
at least 48000 ms (the binary64 product MEMORY_LEAK_TIME_WINDOW_MS * 0.8
is exactly 48000.0, so the source >= test on integer ages is the integer
test 48000 <= age); when no entry qualifies, the loop leaves the initial
values, which are the current time and current memory. -/
def leakReference (currentTime : Int) (currentMemory : Rat) :
    List (Int × Rat) → Int × Rat
  | [] => (currentTime, currentMemory)
  | e :: rest =>
    if 48000 ≤ currentTime - e.1 then e
    else leakReference currentTime currentMemory rest

/-- detectMemoryLeak_: with at least 2 samples, take the last sample as
current, pick the reference sample, and flag a leak when the raw growth
exceeds the threshold over a positive span and the window-normalized
growth also exceeds the threshold. -/
def detectMemoryLeak (history : List (Int × Rat)) : Bool :=
  if history.length < 2 then false
  else
    match history.getLast? with
    | none => false
    | some last =>
      let oldRef := leakReference last.1 last.2 history
      let memoryGrowthMB := last.2 - oldRef.2
      let timeSpanMS := last.1 - oldRef.1
      if 0 < timeSpanMS ∧ MEMORY_LEAK_THRESHOLD_MB < memoryGrowthMB then
        decide (MEMORY_LEAK_THRESHOLD_MB <
          memoryGrowthMB * (MEMORY_LEAK_TIME_WINDOW_MS : Rat) / (timeSpanMS : Rat))
      else false

/-- QVector first() on a history known to be nonempty at the call site. -/
def firstEntry (h : List (Int × Rat)) : Int × Rat :=
  match h with
  | [] => (0, 0)
  | e :: _ => e

/-- getProcessInfo: validate the PID, check /proc/pid exists, read the
fields (name and memory may throw, which the source catches and turns into
nullopt), update the memory history, run leak detection, and emit the leak
event when the flag is set.  Returns the optional info, the new history
map and the emitted events. -/
def getProcessInfo (env : SysEnv) (now : Int) (hist : HistMap) (pid : Int) :
    Option ProcessInfo × HistMap × List Event :=
  if isValidProcessID pid then
    if env.procDirExists pid then
      match readProcessName (env.files pid).commLines with
      | Except.error _ => (none, hist, [])
      | Except.ok processName =>
        match readProcessMemory (env.files pid).statusLines with
        | Except.error _ => (none, hist, [])
        | Except.ok memoryMB =>
          let cpuPercent := readProcessCpu env (env.files pid).statLines
          let state := readProcessState (env.files pid).statLines
          let priority := readProcessPriority (env.files pid).statLines
          let hist2 := updateMemoryHistoryMap now memoryMB pid hist
          let newHistory := mapLookup hist2 pid
          let isLeech := detectMemoryLeak newHistory
          let events :=
            if isLeech then
              let growthMB :=
                if 2 ≤ newHistory.length then
                  memoryMB - (firstEntry newHistory).2
                else 0
              [Event.memoryLeakDetected pid processName growthMB]
            else []
          (some ⟨pid, processName, memoryMB, cpuPercent, state, newHistory,
                 isLeech, priority⟩,
           hist2, events)
    else (none, hist, [])
  else (none, hist, [])

/-- terminateProcess: PID validity gate, ownership gate, then kill with
SIGTERM or SIGKILL, emitting processTerminated with the outcome. -/
def terminateProcess (env : SysEnv) (pid : Int) (method : TerminationMethod) :
    OpResult :=
  if !isValidProcessID pid then ⟨false, [], []⟩
  else if !canKillProcess env pid then ⟨false, [], []⟩
  else
    let signal := match method with
      | TerminationMethod.graceful => SIGTERM
      | TerminationMethod.force => SIGKILL
    if env.killResult pid signal = 0 then
      ⟨true, [Event.processTerminated pid true], [Syscall.kill pid signal]⟩
    else
      ⟨false, [Event.processTerminated pid false], [Syscall.kill pid signal]⟩

/-- suspendProcess: PID validity gate, ownership gate, then kill with
SIGSTOP; no Qt signal is emitted on either outcome. -/
def suspendProcess (env : SysEnv) (pid : Int) : OpResult :=
  if !isValidProcessID pid then ⟨false, [], []⟩
  else if !canKillProcess env pid then ⟨false, [], []⟩
  else if env.killResult pid SIGSTOP = 0 then ⟨true, [], [Syscall.kill pid SIGSTOP]⟩
  else ⟨false, [], [Syscall.kill pid SIGSTOP]⟩

/-- resumeProcess: PID validity gate, ownership gate, then kill with
SIGCONT; no Qt signal is emitted on either outcome. -/
def resumeProcess (env : SysEnv) (pid : Int) : OpResult :=
  if !isValidProcessID pid then ⟨false, [], []⟩
  else if !canKillProcess env pid then ⟨false, [], []⟩
  else if env.killResult pid SIGCONT = 0 then ⟨true, [], [Syscall.kill pid SIGCONT]⟩
  else ⟨false, [], [Syscall.kill pid SIGCONT]⟩

/-- setPriority: PID validity gate, clamp the niceness with qBound into
the range -20 to 19, then issue setpriority and return its success. -/
def setPriority (env : SysEnv) (pid : Int) (priority : Int) : OpResult :=
  if !isValidProcessID pid then ⟨false, [], []⟩
  else
    let clamped := max (-20) (min priority 19)
    if env.setpriorityResult pid clamped = 0 then
      ⟨true, [], [Syscall.setpriority pid clamped]⟩
    else
      ⟨false, [], [Syscall.setpriority pid clamped]⟩

/-- Background-name denylist of isBackgroundProcess_. -/
def backgroundProcesses : List String :=
  ["systemd", "kthreadd", "ksoftirqd", "rcu_", "watchdog",
   "systemd-", "dbus", "NetworkManager", "pulseaudio",
   "tracker", "baloo", "updatedb", "indexer", "backup",
   "cron", "anacron", "rsyslog", "accounts-daemon"]

/-- Substring occurrence test on character lists: the needle occurs as a
contiguous run somewhere in the haystack. -/
def charsContain (needle : List Char) : List Char → Bool
  | [] => needle.isEmpty
  | c :: rest => List.isPrefixOf needle (c :: rest) || charsContain needle rest

/-- QString contains with Qt.CaseInsensitive: case-folded substring test. -/
def containsCI (haystack needle : String) : Bool :=
  charsContain (needle.data.map Char.toLower) (haystack.data.map Char.toLower)

/-- isBackgroundProcess_: denylist name match, or the idle-but-resident
heuristic of low CPU with high memory. -/
def isBackgroundProcess (p : ProcessInfo) : Bool :=
  backgroundProcesses.any (fun bg => containsCI p.name bg) ||
  (decide (p.cpuPercent < 1) && decide (50 < p.memoryMB))

/-- Selection loop of getFocusedWindowPID_ over the cached processes,
carrying the best PID and the highest CPU seen so far, started at 0 and 0. -/
def pickLoop : List ProcessInfo → Int × Rat → Int × Rat
  | [], acc => acc
  | p :: rest, acc =>
    pickLoop rest
      (if isBackgroundProcess p = false ∧ acc.2 < p.cpuPercent
       then (p.pid, p.cpuPercent) else acc)

/-- getFocusedWindowPID_: the PID selected by the loop over the cache. -/
def getFocusedWindowPID (cached : List ProcessInfo) : Int :=
  (pickLoop cached (0, 0)).1

/-- Concrete environment with one well-formed process of PID 5 owned by
root, observed by a non-root caller with UID 1000. -/
def rootOwnedEnv : SysEnv :=
  ⟨fun p => if p = 5 then
      ⟨some ["foo"], some ["Name:\tfoo", "Uid:\t0\t0\t0\t0", "VmRSS:\t  2048 kB"], some []⟩
    else ⟨none, none, none⟩,
   fun p => decide (p = 5), some "100.00 50.00", 100, 1000,
   fun _ _ => 0, fun _ _ => 0⟩

/-- Concrete environment where PID 5 exists with a readable comm file but
an unopenable status file. -/
def unreadableStatusEnv : SysEnv :=
  ⟨fun p => if p = 5 then ⟨some ["foo"], none, some []⟩ else ⟨none, none, none⟩,
   fun p => decide (p = 5), none, 100, 1000, fun _ _ => 0, fun _ _ => 0⟩

/-- Cached process used in the focus-mode counterexample: an interactive
name, small memory, and zero CPU. -/
def idleShellInfo : ProcessInfo :=
  ⟨5, "bash", 10, 0, ProcessState.running, [], false, 0⟩

/-- Cached process with nonzero CPU used in the focus-mode witness. -/
def activeGameInfo : ProcessInfo :=
  ⟨7, "game", 10, 50, ProcessState.running, [], false, 0⟩

/- Helper lemmas shared across the development. -/

/-- Lookup after insert at the same key returns the inserted history. -/
theorem mapLookup_mapInsert_self (m : HistMap) (p : Int) (h : List (Int × Rat)) :
    mapLookup (mapInsert m p h) p = h := by
  induction m with
  | nil => simp [mapInsert, mapLookup]
  | cons e rest ih =>
    by_cases hq : e.1 = p
    · simp [mapInsert, mapLookup, hq]
    · simpa [mapInsert, mapLookup, hq] using ih

/-- Lookup after insert at a different key is unchanged. -/
theorem mapLookup_mapInsert_ne (m : HistMap) (p q : Int) (h : List (Int × Rat))
    (hne : q ≠ p) : mapLookup (mapInsert m p h) q = mapLookup m q := by
  induction m with
  | nil =>
    have hpq : ¬ p = q := fun hc => hne hc.symm
    simp [mapInsert, mapLookup, hpq]
  | cons e rest ih =>
    by_cases hq : e.1 = p
    · subst hq
      have hq2 : ¬ e.1 = q := fun hc => hne hc.symm
      simp [mapInsert, mapLookup, hq2]
    · by_cases hq3 : e.1 = q
      · simp [mapInsert, mapLookup, hq, hq3, hne]
      · simpa [mapInsert, mapLookup, hq, hq3] using ih

/-- Claim C8: for every process whose memory history contains fewer than 2
samples, detectMemoryLeak returns false. -/
theorem c8_leak_false_below_two_samples (h : List (Int × Rat))
    (hlen : h.length < 2) : detectMemoryLeak h = false := by
  simp [detectMemoryLeak, hlen]

/-- Claim C8 witness at the singleton history. -/
theorem c8_witness : detectMemoryLeak [(0, 10)] = false :=
  c8_leak_false_below_two_samples [(0, 10)] (by decide)

/-- Claim C10: updateMemoryHistory on PID p leaves the stored history of
every other PID q unchanged. -/
theorem c10_update_frames_other_pids (m : HistMap) (t : Int) (mem : Rat)
    (p q : Int) (hne : q ≠ p) :
    mapLookup (updateMemoryHistoryMap t mem p m) q = mapLookup m q := by
  rw [updateMemoryHistoryMap]
  exact mapLookup_mapInsert_ne m p q _ hne

/-- Claim C10 witness at concrete PIDs 1 and 2. -/
theorem c10_witness :
    mapLookup (updateMemoryHistoryMap 0 0 1 []) 2 = mapLookup [] 2 :=
  c10_update_frames_other_pids [] 0 0 1 2 (by decide)

/-- Claim C1 counterexample: on the two-sample history at times 0 and 1000
no sample is old enough, and the reference chosen by the code is the
LATEST sample, not the oldest one as the claim states; consequently the
growth and span are 0 and the leak flag is false. -/
theorem c1_counterexample :
    leakReference 1000 200 [(0, 10), (1000, 200)] = (1000, 200) ∧
    leakReference 1000 200 [(0, 10), (1000, 200)] ≠ ((0 : Int), (10 : Rat)) ∧
    detectMemoryLeak [(0, 10), (1000, 200)] = false :=
  ⟨by decide, by decide, by decide⟩

/-- Claim C1 amended: the reference sample is the first sample, scanning
from oldest to newest, whose age relative to the latest sample is at
least 48000 ms (0.8 times the window); when no sample qualifies the
fallback reference is the latest sample itself (current time and current
memory), not the oldest one. -/
theorem c1_amended_reference_choice (ct : Int) (cm : Rat)
    (h : List (Int × Rat)) :
    leakReference ct cm h =
      (h.find? (fun e => decide (48000 ≤ ct - e.1))).getD (ct, cm) := by
  induction h with
  | nil => rfl
  | cons e rest ih =>
    by_cases hc : 48000 ≤ ct - e.1
    · simp [leakReference, List.find?, hc]
    · simp [leakReference, List.find?, hc, ih]

/-- Claim C3 counterexample: a non-root caller fails the ownership check
on a root-owned PID; all three control operations return false but emit NO
result event, contradicting the boolean-plus-event claim. -/
theorem c3_counterexample :
    canKillProcess rootOwnedEnv 5 = false ∧
    rootOwnedEnv.euid ≠ 0 ∧
    terminateProcess rootOwnedEnv 5 TerminationMethod.graceful = ⟨false, [], []⟩ ∧
    suspendProcess rootOwnedEnv 5 = ⟨false, [], []⟩ ∧
    resumeProcess rootOwnedEnv 5 = ⟨false, [], []⟩ :=
  ⟨by decide, by decide, by decide, by decide, by decide⟩

/-- Claim C3 amended: when the ownership check fails, each control
operation returns false and emits no event and issues no system call; an
event is only ever emitted by terminateProcess after a kill attempt, and
suspend and resume never emit events. -/
theorem c3_amended_denial_is_silent (env : SysEnv) (pid : Int)
    (method : TerminationMethod) (hown : canKillProcess env pid = false) :
    terminateProcess env pid method = ⟨false, [], []⟩ ∧
    suspendProcess env pid = ⟨false, [], []⟩ ∧
    resumeProcess env pid = ⟨false, [], []⟩ := by
  by_cases hv : isValidProcessID pid <;>
    simp [terminateProcess, suspendProcess, resumeProcess, hv, hown]

/-- Claim C3 amended witness at the concrete denial environment. -/
theorem c3_amended_witness :
    terminateProcess rootOwnedEnv 5 TerminationMethod.graceful = ⟨false, [], []⟩ :=
  (c3_amended_denial_is_silent rootOwnedEnv 5 TerminationMethod.graceful
    (by decide)).1

/-- Claim C6: when the ownership check fails for a non-root caller, all
three control operations return false and issue no signal system call. -/
theorem c6_denial_blocks_signals (env : SysEnv) (pid : Int)
    (method : TerminationMethod) (_hroot : env.euid ≠ 0)
    (hown : canKillProcess env pid = false) :
    (terminateProcess env pid method).result = false ∧
    (terminateProcess env pid method).syscalls = [] ∧
    (suspendProcess env pid).result = false ∧
    (suspendProcess env pid).syscalls = [] ∧
    (resumeProcess env pid).result = false ∧
    (resumeProcess env pid).syscalls = [] := by
  by_cases hv : isValidProcessID pid <;>
    simp [terminateProcess, suspendProcess, resumeProcess, hv, hown]

/-- Claim C6 witness at the concrete denial environment. -/
theorem c6_witness :
    (terminateProcess rootOwnedEnv 5 TerminationMethod.force).result = false ∧
    (terminateProcess rootOwnedEnv 5 TerminationMethod.force).syscalls = [] ∧
    (suspendProcess rootOwnedEnv 5).result = false ∧
    (suspendProcess rootOwnedEnv 5).syscalls = [] ∧
    (resumeProcess rootOwnedEnv 5).result = false ∧
    (resumeProcess rootOwnedEnv 5).syscalls = [] :=
  c6_denial_blocks_signals rootOwnedEnv 5 TerminationMethod.force
    (by decide) (by decide)

/-- Claim C9: every PID outside the open interval 0 to 65536 is rejected
up front: getProcessInfo returns none and the four control operations
return false without issuing any system call. -/
theorem c9_invalid_pid_rejected (env : SysEnv) (now : Int) (hist : HistMap)
    (pid : Int) (method : TerminationMethod) (priority : Int)
    (hpid : pid ≤ 0 ∨ 65536 ≤ pid) :
    (getProcessInfo env now hist pid).1 = none ∧
    terminateProcess env pid method = ⟨false, [], []⟩ ∧
    suspendProcess env pid = ⟨false, [], []⟩ ∧
    resumeProcess env pid = ⟨false, [], []⟩ ∧
    setPriority env pid priority = ⟨false, [], []⟩ := by
  have hv : isValidProcessID pid = false := by
    simp only [isValidProcessID, Bool.and_eq_false_iff, decide_eq_false_iff_not, not_lt]
    omega
  refine ⟨?_, ?_, ?_, ?_, ?_⟩ <;>
    simp [getProcessInfo, terminateProcess, suspendProcess, resumeProcess,
      setPriority, hv]

/-- Claim C9 witness at PID 70000. -/
theorem c9_witness :
    (getProcessInfo rootOwnedEnv 0 [] 70000).1 = none ∧
    terminateProcess rootOwnedEnv 70000 TerminationMethod.graceful = ⟨false, [], []⟩ ∧
    suspendProcess rootOwnedEnv 70000 = ⟨false, [], []⟩ ∧
    resumeProcess rootOwnedEnv 70000 = ⟨false, [], []⟩ ∧
    setPriority rootOwnedEnv 70000 0 = ⟨false, [], []⟩ :=
  c9_invalid_pid_rejected rootOwnedEnv 0 [] 70000 TerminationMethod.graceful 0
    (Or.inr (by norm_num))

/-- Claim C7: setPriority clamps every requested niceness into the range
-20 to 19 before the system call, and a request of 999 on a valid PID
issues the call at exactly 19. -/
theorem c7_setPriority_clamps (env : SysEnv) (pid priority : Int) :
    (∀ c ∈ (setPriority env pid priority).syscalls,
      ∃ q, c = Syscall.setpriority pid q ∧ -20 ≤ q ∧ q ≤ 19) ∧
    (isValidProcessID pid = true →
      (setPriority env pid 999).syscalls = [Syscall.setpriority pid 19]) := by
  constructor
  · intro c hc
    by_cases hv : isValidProcessID pid
    · have hs : (setPriority env pid priority).syscalls =
          [Syscall.setpriority pid (max (-20) (min priority 19))] := by
        by_cases hr : env.setpriorityResult pid (max (-20) (min priority 19)) = 0 <;>
          simp [setPriority, hv, hr]
      rw [hs] at hc
      rw [List.mem_singleton] at hc
      refine ⟨max (-20) (min priority 19), hc, le_max_left _ _, ?_⟩
      exact max_le (by norm_num) (min_le_right _ _)
    · simp [setPriority, hv] at hc
  · intro hv
    have h19 : max (-20) (min (999 : Int) 19) = 19 := by decide
    by_cases hr : env.setpriorityResult pid 19 = 0 <;>
      simp [setPriority, hv, h19, hr]

/-- Claim C7 witness: the 999 request on PID 5 issues niceness 19, a value
inside the clamp range. -/
theorem c7_witness :
    (setPriority rootOwnedEnv 5 999).syscalls = [Syscall.setpriority 5 19] ∧
    ∃ q, Syscall.setpriority 5 19 = Syscall.setpriority 5 q ∧ -20 ≤ q ∧ q ≤ 19 := by
  have h := c7_setPriority_clamps rootOwnedEnv 5 999
  have hs := h.2 (by decide)
  refine ⟨hs, h.1 (Syscall.setpriority 5 19) ?_⟩
  rw [hs]
  exact List.mem_singleton_self _

/-- Scan helper fact: when no status line starts with VmRSS the scan
yields the 0 default. -/
theorem scanVmRSS_absent (lines : List String)
    (habs : ∀ l ∈ lines, strStartsWith l "VmRSS:" = false) :
    scanVmRSS lines = 0 := by
  induction lines with
  | nil => rfl
  | cons l rest ih =>
    have h1 := habs l (List.mem_cons_self l rest)
    simp only [scanVmRSS, h1]
    simp only [Bool.false_eq_true, if_false]
    exact ih (fun x hx => habs x (List.mem_cons_of_mem _ hx))

/-- Scan helper fact: when the first status line starting with VmRSS is
malformed (fewer than three space-separated fields, or a second field
that does not parse as an integer) the scan breaks out and yields the 0
default. -/
theorem scanVmRSS_malformed (pre : List String) (line : String)
    (post : List String)
    (hpre : ∀ l ∈ pre, strStartsWith l "VmRSS:" = false)
    (hline : strStartsWith line "VmRSS:" = true)
    (hbad : (splitSkipEmpty ' ' line).length < 3 ∨
      strToInt? ((splitSkipEmpty ' ' line).getD 1 "") = none) :
    scanVmRSS (pre ++ line :: post) = 0 := by
  induction pre with
  | nil =>
    rw [List.nil_append]
    rcases hbad with h | h
    · have hlen : ¬ 3 ≤ (splitSkipEmpty ' ' line).length := Nat.not_le.mpr h
      simp [scanVmRSS, hline, hlen]
    · by_cases hlen : 3 ≤ (splitSkipEmpty ' ' line).length
      · simp only [List.getD_eq_getElem?_getD] at h
        simp [scanVmRSS, hline, hlen, h]
      · simp [scanVmRSS, hline, hlen]
  | cons a pre ih =>
    have ha := hpre a (List.mem_cons_self a pre)
    rw [List.cons_append]
    simp only [scanVmRSS, ha]
    simp only [Bool.false_eq_true, if_false]
    exact ih (fun x hx => hpre x (List.mem_cons_of_mem _ hx))

/-- Claim C2 counterexample: for PID 5 the directory exists and the name
reads fine, but the status file does not open; readProcessMemory then
fails instead of returning the 0 default, and getProcessInfo drops the
process. -/
theorem c2_counterexample :
    readProcessMemory none = Except.error ProcessError.cannotOpen ∧
    unreadableStatusEnv.procDirExists 5 = true ∧
    readProcessName (unreadableStatusEnv.files 5).commLines = Except.ok "foo" ∧
    (getProcessInfo unreadableStatusEnv 0 [] 5).1 = none :=
  ⟨rfl, by decide, rfl, by decide⟩

/-- Claim C2 amended: readProcessMemory never fails when the status file
opens, and yields the 0 default both when the VmRSS field is absent and
when the first VmRSS line is present but malformed; under a readable
status file and a readable nonempty name, getProcessInfo keeps the
process.  When the status file itself does not open the read throws and
the process is dropped. -/
theorem c2_amended_memory_default (lines : List String) (env : SysEnv)
    (now : Int) (hist : HistMap) (pid : Int) (nm : String)
    (lines2 : List String) :
    (∃ v, readProcessMemory (some lines) = Except.ok v) ∧
    ((∀ l ∈ lines, strStartsWith l "VmRSS:" = false) →
      readProcessMemory (some lines) = Except.ok 0) ∧
    (∀ pre line post, lines = pre ++ line :: post →
      (∀ l ∈ pre, strStartsWith l "VmRSS:" = false) →
      strStartsWith line "VmRSS:" = true →
      ((splitSkipEmpty ' ' line).length < 3 ∨
        strToInt? ((splitSkipEmpty ' ' line).getD 1 "") = none) →
      readProcessMemory (some lines) = Except.ok 0) ∧
    (isValidProcessID pid = true → env.procDirExists pid = true →
      readProcessName (env.files pid).commLines = Except.ok nm →
      (env.files pid).statusLines = some lines2 →
      (getProcessInfo env now hist pid).1.isSome = true) := by
  refine ⟨⟨scanVmRSS lines, rfl⟩, ?_, ?_, ?_⟩
  · intro habs
    rw [readProcessMemory, scanVmRSS_absent lines habs]
  · intro pre line post hdec hpre hline hbad
    rw [hdec, readProcessMemory, scanVmRSS_malformed pre line post hpre hline hbad]
  · intro hv hex hnm hst
    simp [getProcessInfo, hv, hex, hnm, hst, readProcessMemory]

/-- Claim C2 amended witness: a status file without a VmRSS line yields
the ok 0 default, so does one whose VmRSS line has an unparseable value,
and the fully readable PID 5 is kept in the snapshot. -/
theorem c2_amended_witness :
    readProcessMemory (some ["Name:\tfoo"]) = Except.ok 0 ∧
    readProcessMemory (some ["VmRSS: garbage kB"]) = Except.ok 0 ∧
    (getProcessInfo rootOwnedEnv 0 [] 5).1.isSome = true := by
  have h := c2_amended_memory_default ["Name:\tfoo"] rootOwnedEnv 0 [] 5 "foo"
    ["Name:\tfoo", "Uid:\t0\t0\t0\t0", "VmRSS:\t  2048 kB"]
  have h2 := c2_amended_memory_default ["VmRSS: garbage kB"] rootOwnedEnv 0 [] 5
    "foo" ["Name:\tfoo"]
  refine ⟨h.2.1 (by decide), ?_, h.2.2.2 (by decide) (by decide) rfl rfl⟩
  exact h2.2.2.1 [] "VmRSS: garbage kB" [] rfl (by decide) (by decide)
    (Or.inr (by decide))

/-- Accumulator monotonicity of the focused-PID selection loop. -/
theorem pickLoop_acc_le (l : List ProcessInfo) :
    ∀ acc : Int × Rat, acc.2 ≤ (pickLoop l acc).2 := by
  induction l with
  | nil => intro acc; exact le_refl _
  | cons p rest ih =>
    intro acc
    simp only [pickLoop]
    by_cases hc : isBackgroundProcess p = false ∧ acc.2 < p.cpuPercent
    · rw [if_pos hc]
      exact le_trans (le_of_lt hc.2) (ih (p.pid, p.cpuPercent))
    · rw [if_neg hc]
      exact ih acc

/-- The selection loop leaves the accumulator unchanged when every process
in the list is background or does not beat the accumulator. -/
theorem pickLoop_skip (l : List ProcessInfo) :
    ∀ acc : Int × Rat,
      (∀ p ∈ l, isBackgroundProcess p = true ∨ p.cpuPercent ≤ acc.2) →
      pickLoop l acc = acc := by
  induction l with
  | nil => intro acc _; rfl
  | cons p rest ih =>
    intro acc hall
    have hp := hall p (List.mem_cons_self p rest)
    have hcond : ¬ (isBackgroundProcess p = false ∧ acc.2 < p.cpuPercent) := by
      rcases hp with h | h
      · intro hc; rw [h] at hc; exact absurd hc.1 (by simp)
      · intro hc; exact absurd hc.2 (not_lt.mpr h)
    simp only [pickLoop]
    rw [if_neg hcond]
    exact ih acc (fun q hq => hall q (List.mem_cons_of_mem _ hq))

/-- The selection loop either keeps the accumulator or returns a
non-background process from the list that beats it. -/
theorem pickLoop_result (l : List ProcessInfo) :
    ∀ acc : Int × Rat,
      pickLoop l acc = acc ∨
      ∃ p ∈ l, pickLoop l acc = (p.pid, p.cpuPercent) ∧
        isBackgroundProcess p = false ∧ acc.2 < p.cpuPercent := by
  induction l with
  | nil => intro acc; exact Or.inl rfl
  | cons p rest ih =>
    intro acc
    simp only [pickLoop]
    by_cases hc : isBackgroundProcess p = false ∧ acc.2 < p.cpuPercent
    · rw [if_pos hc]
      rcases ih (p.pid, p.cpuPercent) with h | ⟨q, hq, heq, hbg, hlt⟩
      · exact Or.inr ⟨p, List.mem_cons_self p rest, h, hc.1, hc.2⟩
      · refine Or.inr ⟨q, List.mem_cons_of_mem _ hq, heq, hbg, ?_⟩
        exact lt_trans hc.2 hlt
    · rw [if_neg hc]
      rcases ih acc with h | ⟨q, hq, heq, hbg, hlt⟩
      · exact Or.inl h
      · exact Or.inr ⟨q, List.mem_cons_of_mem _ hq, heq, hbg, hlt⟩

/-- Maximality of the selection loop: the final accumulator CPU value
dominates every non-background process of the list. -/
theorem pickLoop_max (l : List ProcessInfo) :
    ∀ (acc : Int × Rat) (q : ProcessInfo), q ∈ l →
      isBackgroundProcess q = false → q.cpuPercent ≤ (pickLoop l acc).2 := by
  induction l with
  | nil => intro acc q hq _; exact absurd hq (List.not_mem_nil q)
  | cons p rest ih =>
    intro acc q hq hbg
    simp only [pickLoop]
    rcases List.mem_cons.mp hq with rfl | hmem
    · by_cases hc : isBackgroundProcess q = false ∧ acc.2 < q.cpuPercent
      · rw [if_pos hc]
        exact pickLoop_acc_le rest (q.pid, q.cpuPercent)
      · rw [if_neg hc]
        have hle : q.cpuPercent ≤ acc.2 := by
          by_contra hlt
          exact hc ⟨hbg, lt_of_not_le hlt⟩
        exact le_trans hle (pickLoop_acc_le rest acc)
    · exact ih _ q hmem hbg

/-- Claim C4 counterexample: a nonempty cache holding one non-background
process with zero cpuPercent makes getFocusedWindowPID return 0, refuting
the claimed equivalence of returning 0 with the cache being empty or all
background. -/
theorem c4_counterexample :
    getFocusedWindowPID [idleShellInfo] = 0 ∧
    isBackgroundProcess idleShellInfo = false ∧
    ([idleShellInfo] : List ProcessInfo) ≠ [] :=
  ⟨by decide, by decide, by decide⟩

/-- Claim C4 amended: getFocusedWindowPID returns 0 whenever every cached
process is background or has cpuPercent at most 0; and whenever some
non-background process has positive cpuPercent, the returned value is the
PID of a non-background cached process whose cpuPercent dominates every
non-background cached process. -/
theorem c4_amended_focus_choice (cached : List ProcessInfo) :
    ((∀ p ∈ cached, isBackgroundProcess p = true ∨ p.cpuPercent ≤ 0) →
      getFocusedWindowPID cached = 0) ∧
    ((∃ p ∈ cached, isBackgroundProcess p = false ∧ 0 < p.cpuPercent) →
      ∃ p ∈ cached, isBackgroundProcess p = false ∧
        getFocusedWindowPID cached = p.pid ∧
        ∀ q ∈ cached, isBackgroundProcess q = false →
          q.cpuPercent ≤ p.cpuPercent) := by
  constructor
  · intro hall
    have hskip := pickLoop_skip cached (0, 0) (by simpa using hall)
    rw [getFocusedWindowPID, hskip]
  · rintro ⟨p0, hp0, hbg0, hcpu0⟩
    rcases pickLoop_result cached (0, 0) with h | ⟨p, hp, heq, hbg, _⟩
    · exfalso
      have hmax := pickLoop_max cached (0, 0) p0 hp0 hbg0
      rw [h] at hmax
      exact absurd hcpu0 (not_lt.mpr hmax)
    · refine ⟨p, hp, hbg, ?_, ?_⟩
      · rw [getFocusedWindowPID, heq]
      · intro q hq hbgq
        have hm := pickLoop_max cached (0, 0) q hq hbgq
        rw [heq] at hm
        exact hm

/-- Claim C4 amended witness: with one active non-background process the
selected PID is that process, and with the idle shell alone the result
is 0. -/
theorem c4_amended_witness :
    (∃ p ∈ [activeGameInfo], isBackgroundProcess p = false ∧
      getFocusedWindowPID [activeGameInfo] = p.pid ∧
      ∀ q ∈ [activeGameInfo], isBackgroundProcess q = false →
        q.cpuPercent ≤ p.cpuPercent) ∧
    getFocusedWindowPID [idleShellInfo] = 0 := by
  constructor
  · exact (c4_amended_focus_choice [activeGameInfo]).2
      ⟨activeGameInfo, List.mem_singleton_self _, by decide, by decide⟩
  · exact (c4_amended_focus_choice [idleShellInfo]).1 (by decide)

/-- The size-cap loop leaves at most HISTORY_MAX_ENTRIES entries. -/
theorem capEntries_length_le (l : List (Int × Rat)) :
    (capEntries l).length ≤ HISTORY_MAX_ENTRIES := by
  induction l with
  | nil => simp [capEntries, HISTORY_MAX_ENTRIES]
  | cons e rest ih =>
    simp only [capEntries]
    split
    · exact ih
    · rename_i hc
      exact Nat.le_of_not_lt hc

/-- The size-cap loop returns a sublist (a suffix) of its input. -/
theorem capEntries_sublist (l : List (Int × Rat)) :
    List.Sublist (capEntries l) l := by
  induction l with
  | nil => simp [capEntries]
  | cons e rest ih =>
    simp only [capEntries]
    split
    · exact ih.trans (List.sublist_cons_self e rest)
    · exact List.Sublist.refl _

/-- The front-eviction loop returns a sublist (a suffix) of its input. -/
theorem dropOldEntries_sublist (t : Int) (l : List (Int × Rat)) :
    List.Sublist (dropOldEntries t l) l := by
  induction l with
  | nil => simp [dropOldEntries]
  | cons e rest ih =>
    simp only [dropOldEntries]
    split
    · exact ih.trans (List.sublist_cons_self e rest)
    · exact List.Sublist.refl _

/-- On a chronologically sorted list, every entry surviving the
front-eviction loop is within the time window of the given time. -/
theorem dropOldEntries_window (t : Int) (l : List (Int × Rat))
    (hsort : List.Pairwise (fun a b : Int × Rat => a.1 ≤ b.1) l) :
    ∀ e ∈ dropOldEntries t l, t - e.1 ≤ MEMORY_LEAK_TIME_WINDOW_MS := by
  induction l with
  | nil => intro e he; simp [dropOldEntries] at he
  | cons a rest ih =>
    obtain ⟨ha, hrest⟩ := List.pairwise_cons.mp hsort
    intro e he
    by_cases hc : MEMORY_LEAK_TIME_WINDOW_MS < t - a.1
    · simp only [dropOldEntries, if_pos hc] at he
      exact ih hrest e he
    · simp only [dropOldEntries, if_neg hc] at he
      rcases List.mem_cons.mp he with rfl | hmem
      · exact le_of_not_lt hc
      · exact le_trans (sub_le_sub_left (ha e hmem) t) (le_of_not_lt hc)

/-- After appending the fresh sample, the front-eviction loop always keeps
it as the last entry. -/
theorem dropOldEntries_getLast_concat (t : Int) (m : Rat)
    (h : List (Int × Rat)) :
    (dropOldEntries t (h ++ [(t, m)])).getLast? = some (t, m) := by
  induction h with
  | nil =>
    have hc : ¬ MEMORY_LEAK_TIME_WINDOW_MS < (0 : Int) := by decide
    simp [dropOldEntries, sub_self, hc]
  | cons a h ih =>
    by_cases hc : MEMORY_LEAK_TIME_WINDOW_MS < t - a.1
    · simpa [dropOldEntries, hc] using ih
    · rw [List.cons_append]
      simp only [dropOldEntries, if_neg hc]
      rw [show a :: (h ++ [(t, m)]) = (a :: h) ++ [(t, m)] from rfl,
        List.getLast?_concat]

/-- The size-cap loop preserves the last entry of a nonempty list. -/
theorem capEntries_getLast (l : List (Int × Rat)) (hne : l ≠ []) :
    (capEntries l).getLast? = l.getLast? := by
  induction l with
  | nil => exact absurd rfl hne
  | cons e rest ih =>
    simp only [capEntries]
    split
    · rename_i hc
      have hrest : rest ≠ [] := by
        intro hnil
        rw [hnil] at hc
        simp [HISTORY_MAX_ENTRIES] at hc
      rw [ih hrest]
      cases rest with
      | nil => exact absurd rfl hrest
      | cons b l2 => rw [List.getLast?_cons_cons]
    · rfl

/-- Invariant of one memory history relative to a clock reading: sorted
timestamps, bounded length, the time-window bound relative to the last
entry, and all timestamps at most the clock reading. -/
def HInvAt (now : Int) (h : List (Int × Rat)) : Prop :=
  List.Pairwise (fun a b : Int × Rat => a.1 ≤ b.1) h ∧
  h.length ≤ HISTORY_MAX_ENTRIES ∧
  (∀ e ∈ h, ∀ l ∈ h.getLast?, l.1 - e.1 ≤ MEMORY_LEAK_TIME_WINDOW_MS) ∧
  (∀ e ∈ h, e.1 ≤ now)

/-- The history invariant is monotone in the clock reading. -/
theorem HInvAt_mono {now t : Int} (hle : now ≤ t) {h : List (Int × Rat)}
    (hinv : HInvAt now h) : HInvAt t h :=
  ⟨hinv.1, hinv.2.1, hinv.2.2.1, fun e he => le_trans (hinv.2.2.2 e he) hle⟩

/-- One updateMemoryHistory step re-establishes the invariant at the new
clock reading and installs the fresh sample as the last entry. -/
theorem updateMemoryHistory_step (t now : Int) (m : Rat)
    (h : List (Int × Rat)) (hinv : HInvAt now h) (hle : now ≤ t) :
    HInvAt t (updateMemoryHistory t m h) ∧
    (updateMemoryHistory t m h).getLast? = some (t, m) := by
  obtain ⟨hsort, _, _, hbound⟩ := hinv
  have hsort0 : List.Pairwise (fun a b : Int × Rat => a.1 ≤ b.1)
      (h ++ [(t, m)]) := by
    rw [List.pairwise_append]
    refine ⟨hsort, List.pairwise_singleton _ _, ?_⟩
    intro a ha b hb
    rw [List.mem_singleton] at hb
    rw [hb]
    exact le_trans (hbound a ha) hle
  have hlast1 : (dropOldEntries t (h ++ [(t, m)])).getLast? = some (t, m) :=
    dropOldEntries_getLast_concat t m h
  have hsort1 : List.Pairwise (fun a b : Int × Rat => a.1 ≤ b.1)
      (dropOldEntries t (h ++ [(t, m)])) :=
    hsort0.sublist (dropOldEntries_sublist t _)
  have hne1 : dropOldEntries t (h ++ [(t, m)]) ≠ [] := by
    intro hnil
    rw [hnil] at hlast1
    simp at hlast1
  have hlast2 : (updateMemoryHistory t m h).getLast? = some (t, m) := by
    rw [updateMemoryHistory, capEntries_getLast _ hne1, hlast1]
  refine ⟨⟨?_, ?_, ?_, ?_⟩, hlast2⟩
  · exact hsort1.sublist (capEntries_sublist _)
  · exact capEntries_length_le _
  · intro e he l hl
    rw [hlast2] at hl
    have hl2 : l = (t, m) := by rw [Option.mem_some_iff] at hl; exact hl.symm
    rw [hl2]
    have he1 : e ∈ dropOldEntries t (h ++ [(t, m)]) :=
      (capEntries_sublist _).subset he
    exact dropOldEntries_window t _ hsort0 e he1
  · intro e he
    have he1 : e ∈ h ++ [(t, m)] :=
      (dropOldEntries_sublist t _).subset ((capEntries_sublist _).subset he)
    rcases List.mem_append.mp he1 with hA | hB
    · exact le_trans (hbound e hA) hle
    · rw [List.mem_singleton] at hB
      rw [hB]

/-- A sequence of updateMemoryHistory calls applied to the per-PID map,
each call carrying its clock reading, its memory sample and its PID. -/
def runUpdates (calls : List (Int × Rat × Int)) : HistMap :=
  calls.foldl (fun acc c => updateMemoryHistoryMap c.1 c.2.1 c.2.2 acc) []

/-- Folding update calls with nondecreasing clock readings preserves the
per-PID history invariant. -/
theorem runUpdates_loop (calls : List (Int × Rat × Int)) :
    ∀ (m : HistMap) (now : Int),
      (∀ p, HInvAt now (mapLookup m p)) →
      List.Chain (fun a b : Int => a ≤ b) now
        (calls.map (fun c => c.1)) →
      ∀ p, ∃ n, HInvAt n
        (mapLookup
          (calls.foldl (fun acc c => updateMemoryHistoryMap c.1 c.2.1 c.2.2 acc) m)
          p) := by
  induction calls with
  | nil => intro m now hinv _ p; exact ⟨now, hinv p⟩
  | cons c rest ih =>
    intro m now hinv hchain p
    rw [List.map_cons, List.chain_cons] at hchain
    obtain ⟨hnow, hchain2⟩ := hchain
    rw [List.foldl_cons]
    refine ih (updateMemoryHistoryMap c.1 c.2.1 c.2.2 m) c.1 ?_ hchain2 p
    intro q
    by_cases hq : q = c.2.2
    · rw [hq, updateMemoryHistoryMap, mapLookup_mapInsert_self]
      exact (updateMemoryHistory_step c.1 now c.2.1 (mapLookup m c.2.2)
        (hinv c.2.2) hnow).1
    · rw [updateMemoryHistoryMap, mapLookup_mapInsert_ne m _ q _ hq]
      exact HInvAt_mono hnow (hinv q)

/-- Claim C5: for every PID and every sequence of update calls with
nondecreasing clock readings, the stored history never exceeds
HISTORY_MAX_ENTRIES entries and never contains an entry more than
MEMORY_LEAK_TIME_WINDOW_MS older than the latest entry of that history. -/
theorem c5_history_bounded_and_windowed (calls : List (Int × Rat × Int))
    (hmono : List.Chain' (fun a b : Int × Rat × Int => a.1 ≤ b.1) calls)
    (p : Int) :
    (mapLookup (runUpdates calls) p).length ≤ HISTORY_MAX_ENTRIES ∧
    ∀ e ∈ mapLookup (runUpdates calls) p,
      ∀ l ∈ (mapLookup (runUpdates calls) p).getLast?,
        l.1 - e.1 ≤ MEMORY_LEAK_TIME_WINDOW_MS := by
  have hempty : ∀ now q : Int, HInvAt now (mapLookup ([] : HistMap) q) := by
    intro now q
    refine ⟨List.Pairwise.nil, ?_, ?_, ?_⟩ <;> simp [mapLookup, HISTORY_MAX_ENTRIES]
  cases calls with
  | nil =>
    obtain ⟨_, h2, h3, _⟩ := hempty 0 p
    exact ⟨h2, h3⟩
  | cons c rest =>
    have hmap : List.Chain' (fun a b : Int => a ≤ b)
        (List.map (fun x : Int × Rat × Int => x.1) (c :: rest)) :=
      (List.chain'_map _).mpr hmono
    rw [List.map_cons] at hmap
    have hchain : List.Chain (fun a b : Int => a ≤ b) c.1
        ((c :: rest).map (fun x => x.1)) := by
      rw [List.map_cons, List.chain_cons]
      exact ⟨le_refl _, hmap⟩
    obtain ⟨n, hinv⟩ := runUpdates_loop (c :: rest) [] c.1
      (fun q => hempty c.1 q) hchain p
    exact ⟨hinv.2.1, hinv.2.2.1⟩

/-- Claim C5 witness on two concrete update calls for PID 5. -/
theorem c5_witness :
    (mapLookup (runUpdates [(0, 10, 5), (1000, 20, 5)]) 5).length ≤
      HISTORY_MAX_ENTRIES :=
  (c5_history_bounded_and_windowed [(0, 10, 5), (1000, 20, 5)]
    (by rw [List.chain'_cons]; exact ⟨by decide, List.chain'_singleton _⟩) 5).1

end LuminaTask
